import Mathlib

/-!
Verification development for the Arrowhead configuration-system repository
(`ahfc-configuration-rest-ws`).  The TypeScript sources are shallowly embedded:
JavaScript strings become `List Char` (UTF-16 code units; all data of interest
is ASCII, where code units and code points agree), machine integers become
`Nat`/`Int`, JavaScript exceptions become `Except`/`Option` results, and the
external collaborators (LMDB cursors, the `vm` sandbox, the system clock, the
HMAC primitive) are passed in as explicit parameters.  Every definition is
executable, so each concrete scenario below is settled by evaluation.
-/

/-- JavaScript strings, embedded as lists of characters. -/
abbrev JStr := List Char

/-- JavaScript `<` on strings: lexicographic comparison of code units. -/
def jstrLtB : JStr → JStr → Bool
  | [], [] => false
  | [], _ :: _ => true
  | _ :: _, [] => false
  | a :: as, b :: bs =>
    if a.toNat < b.toNat then true
    else if a = b then jstrLtB as bs
    else false

/-- JavaScript `<=` on strings. -/
def jstrLeB (a b : JStr) : Bool := !jstrLtB b a

/-- JavaScript `String.prototype.startsWith`. -/
def jStartsWith : JStr → JStr → Bool
  | _, [] => true
  | [], _ :: _ => false
  | a :: as, b :: bs => a = b && jStartsWith as bs

/-- JavaScript `path.endsWith(".")`. -/
def jEndsWithDot (s : JStr) : Bool := s.getLast? = some '.'

/-- Stable insertion used by `jsSort`; an element is placed before the first
strictly larger element, matching the (stable) default `Array.sort`. -/
def jsSortInsert (x : JStr) : List JStr → List JStr
  | [] => [x]
  | y :: ys => if jstrLtB x y then x :: y :: ys else y :: jsSortInsert x ys

/-- JavaScript `Array.prototype.sort()` with the default (code-unit
lexicographic) comparison. -/
def jsSort (l : List JStr) : List JStr := l.foldl (fun acc x => jsSortInsert x acc) []

/-! ## Directory over LMDB (`DirectoryLMDB`, `dpath`)

The store is represented as the key-sorted list of `(path, value)` entries an
LMDB cursor walks over; `goToRange p` positions the cursor at the first key
`≥ p` and `goToNext` advances, which over a sorted entry list is `dropWhile`
and `takeWhile`. -/

/-- Function `dpath.normalize`: ensure a leading ASCII dot. -/
def dpathNormalize (path : JStr) : JStr :=
  (if jStartsWith path ['.'] then [] else ['.']) ++ path

/-- Function `dpath.join`: concatenate a base path and a normalized extension. -/
def dpathJoin (a b : JStr) : JStr := a ++ dpathNormalize b

/-- Function `dpath.prefix` of the source: join the directory path onto every
given path. -/
def dpathPrefixPaths (pre : JStr) (paths : List JStr) : List JStr :=
  paths.map (fun path => dpathJoin pre path)

/-- Loop of `filterOverlappingPaths` over the sorted paths.  The `some pre`
mode is the inner `while` that advances past the run of paths starting with
the trailing-dot path `pre`; when the run ends at a non-matching path, the
`for` header's `++i` of the source skips that path as well, which is the
`fopGo none rest` in the non-matching branch (the current path is dropped). -/
def fopGo : Option JStr → List JStr → List JStr
  | _, [] => []
  | none, p :: rest =>
    if jEndsWithDot p then p :: fopGo (some p) rest
    else p :: fopGo none rest
  | some pre, q :: rest =>
    if jStartsWith q pre then fopGo (some pre) rest
    else fopGo none rest

/-- Function `filterOverlappingPaths` from `DirectoryLMDB`: sort, then coalesce paths
covered by a preceding trailing-dot path. -/
def filterOverlappingPaths (paths : List JStr) : List JStr :=
  fopGo none (jsSort paths)

/-- One cursor pass of `visitEachMatch` for a single (already filtered) path:
`goToRange(path)` followed by either a `startsWith` scan (partially qualified
path) or a single equality check (fully qualified path).  `store` is the
key-sorted entry list the LMDB cursor ranges over. -/
def visitPath (store : List (JStr × Nat)) (path : JStr) : List (JStr × Nat) :=
  let path := if jStartsWith path ['.'] then path else '.' :: path
  let range := store.dropWhile (fun e => jstrLtB e.1 path)
  if jEndsWithDot path then
    range.takeWhile (fun e => jStartsWith e.1 path)
  else
    match range with
    | e :: _ => if e.1 = path then [e] else []
    | [] => []

/-- Function `visitEachMatch` (the transaction-based `DirectoryLMDB` revision): nothing
is visited for an empty path collection, otherwise each filtered path is
visited in turn. -/
def visitEachMatch (store : List (JStr × Nat)) (paths : List JStr) : List (JStr × Nat) :=
  if paths.isEmpty then []
  else (filterOverlappingPaths paths).foldl (fun acc path => acc ++ visitPath store path) []

/-- Method `DirectoryReaderLMDB.list`: extend the paths with the reader's directory
path and collect every visited entry. -/
def directoryList (dir : JStr) (store : List (JStr × Nat)) (paths : List JStr) :
    List (JStr × Nat) :=
  visitEachMatch store (dpathPrefixPaths dir paths)

/-- Modelled from the spec's matching rules, for comparison with
`directoryList`: a fully qualified path matches only the equal key, a
partially qualified path matches every key having it as a prefix. -/
def specPathMatches (p key : JStr) : Bool :=
  let p := dpathNormalize p
  if jEndsWithDot p then jStartsWith key p else key = p

/-- Modelled from the spec's matching rules: a key is listed when some path
matches it; an empty collection or a single empty path matches every key. -/
def specListed (paths : List JStr) (key : JStr) : Bool :=
  if paths.isEmpty || paths = [[]] then true
  else paths.any (fun p => specPathMatches p key)

/-- Concrete store for the directory scenarios: keys in lexical order. -/
def store1 : List (JStr × Nat) := [(".a.x".data, 0), (".b".data, 1)]

/-- Claim C1: `list(P)` inside a transaction is claimed to return exactly the
stored entries whose keys are matched by `P`, in lexical order, with an empty
path collection matching every key.  Evaluating the embedded implementation
refutes this: with entries at `.a.x` and `.b`, `list([".a.", ".b"])` drops the
entry at `.b` even though the path `.b` matches it exactly (the
`filterOverlappingPaths` loop skips the first path after a trailing-dot run),
and `list([])` returns nothing although the spec says it matches every key. -/
theorem directory_list_drops_path_after_partial_run :
    directoryList [] store1 [".a.".data, ".b".data] = [(".a.x".data, 0)] ∧
    specListed [".a.".data, ".b".data] ".b".data = true ∧
    (".b".data, 1) ∈ store1 ∧
    directoryList [] store1 [] = [] ∧
    specListed [] ".b".data = true := by
  refine ⟨by decide, by decide, by decide, by decide, by decide⟩

/-! ## Configuration document patches (`acml/Patch.ts`)

JSON-like runtime values.  JavaScript array holes created by out-of-range
index assignment read back as `undefined`; `JSON.stringify` renders both
`undefined` holes and `null` as `null`. -/

inductive JsValue where
  | undefined
  | jsNull
  | bool (b : Bool)
  | num (n : Int)
  | str (s : JStr)
  | arr (elems : List JsValue)
  | obj (fields : List (JStr × JsValue))

/-- JavaScript runtime faults of the embedded code paths. -/
inductive JsError where
  | typeError
  | rangeError
  | nameMismatch
deriving DecidableEq

def JsValue.isArr : JsValue → Bool
  | .arr _ => true
  | _ => false

/-- JavaScript `typeof x === "object"`; note that `null` satisfies it. -/
def JsValue.typeofObject : JsValue → Bool
  | .jsNull => true
  | .arr _ => true
  | .obj _ => true
  | _ => false

def isAsciiDigit (c : Char) : Bool := 48 ≤ c.toNat && c.toNat ≤ 57

/-- Test `REGEX_IS_INT.test(head)` with the unanchored `/[0-9]+/`: true whenever
the segment contains any digit. -/
def regexIsIntTest (s : JStr) : Bool := s.any isAsciiDigit

/-- Leading-digit accumulator of `parseInt`. -/
def parseIntDigits : JStr → Nat → Nat
  | [], acc => acc
  | c :: cs, acc =>
    if isAsciiDigit c then parseIntDigits cs (acc * 10 + (c.toNat - 48)) else acc

/-- JavaScript `parseInt(head)`: `none` models `NaN` (no leading digit). -/
def jsParseInt (s : JStr) : Option Nat :=
  match s with
  | c :: _ => if isAsciiDigit c then some (parseIntDigits s 0) else none
  | [] => none

/-- Split at every slash, keeping empty pieces. -/
def splitOnSlash : JStr → List JStr
  | [] => [[]]
  | c :: cs =>
    if c = '/' then [] :: splitOnSlash cs
    else
      match splitOnSlash cs with
      | s :: rest => (c :: s) :: rest
      | [] => [[c]]

/-- The sequence of path segments `mutate` walks.  The source slices the path
at the first slash on each call and stops when the remaining path is empty or
`undefined`; pre-splitting at every slash and dropping a final empty piece
visits exactly the same heads in the same order (only a final empty segment is
a terminator, interior empty segments are ordinary keys). -/
def splitPathSegs (path : JStr) : List JStr :=
  let parts := splitOnSlash path
  if parts.getLast? = some [] then parts.dropLast else parts

/-- JavaScript object property read, `undefined` when absent. -/
def objGet (fields : List (JStr × JsValue)) (k : JStr) : JsValue :=
  match fields.lookup k with
  | some v => v
  | none => .undefined

/-- JavaScript object property write: an existing key keeps its position, a
new key is appended. -/
def objSet (fields : List (JStr × JsValue)) (k : JStr) (v : JsValue) :
    List (JStr × JsValue) :=
  match fields with
  | [] => [(k, v)]
  | (k', v') :: rest => if k' = k then (k, v) :: rest else (k', v') :: objSet rest k v

/-- JavaScript array element read, `undefined` when out of range or a hole. -/
def arrGet (xs : List JsValue) (i : Nat) : JsValue := (xs.get? i).getD .undefined

/-- JavaScript array index write, extending with `undefined` holes. -/
def arrSet (xs : List JsValue) (i : Nat) (v : JsValue) : List JsValue :=
  if i < xs.length then xs.set i v
  else xs ++ List.replicate (i - xs.length) .undefined ++ [v]

/-- The recursive `mutate` of `Patch.apply`, over the segment sequence of the
patch path.  An exhausted path returns `data`; otherwise the next segment
selects and coerces the child node.  A segment containing a digit but with no
leading digit yields a `NaN` index, whose array property write is invisible
to JSON; a `null` node reached by a key segment survives the `typeof` guard
and the child read on `null` throws a `TypeError`. -/
def jsMutateSegs : List JStr → JsValue → JsValue → Except JsError JsValue
  | [], _, data => .ok data
  | head :: tail, object, data =>
    if regexIsIntTest head then
      let xs := match object with
        | .arr xs => xs
        | _ => ([] : List JsValue)
      match jsParseInt head with
      | some i =>
        match jsMutateSegs tail (arrGet xs i) data with
        | .error e => .error e
        | .ok inner => .ok (.arr (arrSet xs i inner))
      | none =>
        match jsMutateSegs tail .undefined data with
        | .error e => .error e
        | .ok _ => .ok (.arr xs)
    else
      match object with
      | .jsNull => .error .typeError
      | .obj fields =>
        match jsMutateSegs tail (objGet fields head) data with
        | .error e => .error e
        | .ok inner => .ok (.obj (objSet fields head inner))
      | _ =>
        match jsMutateSegs tail .undefined data with
        | .error e => .error e
        | .ok inner => .ok (.obj [(head, inner)])

/-- Function `mutate(path, object, data)` of `Patch.apply`. -/
def jsMutate (path : JStr) (object data : JsValue) : Except JsError JsValue :=
  jsMutateSegs (splitPathSegs path) object data

/-- Method `Patch.apply`: the mismatched-name guard, then `mutate(path, body, data)`
whose return value is discarded.  The document body therefore only changes
through in-place mutation, which happens exactly when the first segment does
not force the root node to be replaced; a replaced root (empty path, or a
type-coerced root) leaves the body as it was. -/
def patchApply (patchName docName path : JStr) (body data : JsValue) :
    Except JsError JsValue :=
  if docName ≠ patchName then .error .nameMismatch
  else
    match jsMutate path body data with
    | .error e => .error e
    | .ok res =>
      match splitPathSegs path with
      | [] => .ok body
      | head :: _ =>
        if regexIsIntTest head then
          if body.isArr then .ok res else .ok body
        else
          if body.typeofObject && !body.isArr then .ok res else .ok body

/-- Claim C2: applying a patch is claimed to replace the value at the patch
path, with the root coerced as needed; in particular a patch with path
`3/name` applied to the body `{}` is claimed to produce
`[null,null,null,{"name":<data>}]`.  Evaluating the embedding refutes this:
`mutate` does build that list (with `undefined` holes, rendered `null` by
JSON), but `apply` discards `mutate`'s return value, so with a root that must
be coerced from `{}` to a list the document body stays `{}`; an empty patch
path likewise leaves the body unchanged instead of replacing it. -/
theorem patch_apply_discards_replaced_root :
    patchApply ".d".data ".d".data "3/name".data (.obj []) (.num 7) = .ok (.obj []) ∧
    jsMutate "3/name".data (.obj []) (.num 7) =
      .ok (.arr [.undefined, .undefined, .undefined, .obj [("name".data, .num 7)]]) ∧
    patchApply ".d".data ".d".data [] (.obj []) (.num 7) = .ok (.obj []) :=
  ⟨rfl, rfl, rfl⟩

/-! ## DNS UPDATE builder (`dns/Message.ts`) and `ServiceDiscoveryDNSSD.publish`

Resource data is irrelevant to the builder-chain claim, so a resource record
carries name, type, class and TTL; type and class use the numeric values of
`dns/constants.ts` (`SOA = 6`, `PTR = 12`, `ANY = 255`, `IN = 1`,
`NONE = 254`, opcode `UPDATE = 5`). -/

structure DnsRR where
  name : JStr
  rtype : Nat
  dclass : Nat
  ttl : Nat := 0
deriving DecidableEq

structure DnsMessage where
  id : Nat
  qr : Bool
  opcode : Nat
  questions : List DnsRR
  answers : List DnsRR
  authorities : List DnsRR
  additionals : List DnsRR
  signed : Bool
deriving DecidableEq

/-- The immutable `UpdateBuilder` state: every constructor argument is
optional and starts out `undefined`. -/
structure UpdateBuilder where
  idOpt : Option Nat := none
  flagsOpt : Option (Option Bool) := none
  questionsOpt : Option (List DnsRR) := none
  answersOpt : Option (List DnsRR) := none
  authoritiesOpt : Option (List DnsRR) := none
  additionalsOpt : Option (List DnsRR) := none
  signerOpt : Option Unit := none
deriving DecidableEq

/-- Builder state of `UpdateBuilder.empty()`. -/
def UpdateBuilder.emptyBuilder : UpdateBuilder := {}

/-- Method `UpdateBuilder.flags(flags)`. -/
def UpdateBuilder.flags (b : UpdateBuilder) (qr : Option Bool) : UpdateBuilder :=
  { b with flagsOpt := some qr }

/-- Method `UpdateBuilder.zone(zone)`: the zone section is the single SOA question. -/
def UpdateBuilder.zone (b : UpdateBuilder) (z : JStr) : UpdateBuilder :=
  { b with questionsOpt := some [{ name := z, rtype := 6, dclass := 1 }] }

/-- Method `UpdateBuilder.absent(name, type)`: append a class-NONE prerequisite
record to the answers section; the source defaults `type` to ANY (255). -/
def UpdateBuilder.absent (b : UpdateBuilder) (n : JStr) (t : Nat) : UpdateBuilder :=
  { b with answersOpt := some ((b.answersOpt.getD []) ++ [⟨n, t, 254, 0⟩]) }

/-- Method `UpdateBuilder.update(...records)`: append to the authorities section. -/
def UpdateBuilder.update (b : UpdateBuilder) (records : List DnsRR) : UpdateBuilder :=
  { b with authoritiesOpt := some ((b.authoritiesOpt.getD []) ++ records) }

/-- Method `UpdateBuilder.sign(transactionSigner)`. -/
def UpdateBuilder.sign (b : UpdateBuilder) : UpdateBuilder :=
  { b with signerOpt := some () }

/-- Method `UpdateBuilder.build()`.  The flag word is read as `this._flags.qr`: when
no `flags(...)` call ever ran, `_flags` is `undefined` and the member access
throws a `TypeError` while the `Message` constructor arguments are still
being evaluated.  `freshId` stands for `Message.newID()`, and the `||` guard
also replaces an explicit id `0` by it. -/
def UpdateBuilder.build (b : UpdateBuilder) (freshId : Nat) :
    Except JsError DnsMessage :=
  match b.flagsOpt with
  | none => .error .typeError
  | some qr =>
    .ok { id := (match b.idOpt with
            | some i => if i ≠ 0 then i else freshId
            | none => freshId),
          qr := qr.getD false,
          opcode := 5,
          questions := b.questionsOpt.getD [],
          answers := b.answersOpt.getD [],
          authorities := b.authoritiesOpt.getD [],
          additionals := b.additionalsOpt.getD [],
          signed := b.signerOpt.isSome }

/-- The builder chain `ServiceDiscoveryDNSSD.publish` runs for one
registration domain: `newUpdateBuilder().zone(domain).absent(name)
.update(...updates).sign(signer).build()`. -/
def publishUpdateMessage (domain instanceName : JStr) (updates : List DnsRR)
    (freshId : Nat) : Except JsError DnsMessage :=
  ((((UpdateBuilder.emptyBuilder.zone domain).absent instanceName 255).update
      updates).sign).build freshId

/-- The builder state `publish` has accumulated just before `build()`. -/
def publishBuilderState (domain instanceName : JStr) (updates : List DnsRR) :
    UpdateBuilder :=
  (((UpdateBuilder.emptyBuilder.zone domain).absent instanceName 255).update updates).sign

/-- Claim C3: for the scenario of the spec (zone `example.org.`, instance
`svc._http._tcp.example.org.`), the builder chain used by `publish` is
claimed to complete and yield an UPDATE message whose zone section names the
domain and which carries an absence prerequisite of class NONE (254) and type
ANY (255).  Evaluating the embedding refutes the completion part: the chain
never calls `flags(...)`, so `build()` reads `qr` off an `undefined` flags
object and throws a `TypeError` instead of producing a message — even though
the accumulated builder state does hold exactly the claimed zone section and
absence prerequisite. -/
theorem publish_builder_chain_throws :
    publishUpdateMessage "example.org.".data "svc._http._tcp.example.org.".data [] 1
      = .error .typeError ∧
    (publishBuilderState "example.org.".data "svc._http._tcp.example.org.".data []).questionsOpt
      = some [{ name := "example.org.".data, rtype := 6, dclass := 1 }] ∧
    (publishBuilderState "example.org.".data "svc._http._tcp.example.org.".data []).answersOpt
      = some [{ name := "svc._http._tcp.example.org.".data, rtype := 255, dclass := 254 }] := by
  refine ⟨rfl, rfl, rfl⟩

/-! ## Resolver socket transports (`dns/io.ts`, `ResolverSocketTransport`)

A transport holds an insertion-ordered inbound map from message id to
in-flight task, an outbound queue, and a lazily opened socket.  Tasks carry
`retriesLeft` as `Option Int` (`none` models the `undefined` of TCP tasks,
whose `undefined-- > 0` check is false) and the last-sent timestamp in
milliseconds.  Effects on the network are recorded as an action trace. -/

structure RTask where
  rid : Nat
  retriesLeft : Option Int := none
  timestampSent : Nat := 0
deriving DecidableEq

inductive SocketSt where
  | noSocket
  | opening
  | ready
deriving DecidableEq

structure Transport where
  socket : SocketSt
  inbound : List (Nat × RTask)
  outbound : List RTask
deriving DecidableEq

inductive ResolverErrorKind where
  | RequestIDInUse
  | RequestUnanswered
  | Other
deriving DecidableEq

inductive RAction where
  | socketCreated
  | sent (rid : Nat) (time : Nat)
  | rejected (rid : Nat) (kind : ResolverErrorKind)
deriving DecidableEq

/-- JavaScript `Map.set`: an existing key keeps its position in iteration
order, a new key is appended at the end. -/
def mapSet (m : List (Nat × RTask)) (k : Nat) (v : RTask) : List (Nat × RTask) :=
  match m with
  | [] => [(k, v)]
  | (k', v') :: rest => if k' = k then (k, v) :: rest else (k', v') :: mapSet rest k v

/-- Method `ResolverSocketTransport.poll`: nothing to do without outbound tasks; a
missing socket is created (and the tasks stay queued); an opening socket
leaves the queue alone; a ready socket transmits every queued task, stamps
its send time and tracks it in the inbound map. -/
def poll (now : Nat) (st : Transport) : Transport × List RAction :=
  if st.outbound.isEmpty then (st, [])
  else
    match st.socket with
    | .noSocket => ({ st with socket := .opening }, [.socketCreated])
    | .opening => (st, [])
    | .ready =>
      let sends := st.outbound.map (fun t => RAction.sent t.rid now)
      let inbound' := st.outbound.foldl
        (fun m t => mapSet m t.rid { t with timestampSent := now }) st.inbound
      ({ st with inbound := inbound', outbound := [] }, sends)

/-- Method `ResolverSocketTransport.enqueue`: a task whose id is already tracked in
the inbound map is rejected with `RequestIDInUse`; otherwise it is pushed on
the outbound queue and the transport polled. -/
def enqueue (now : Nat) (st : Transport) (task : RTask) : Transport × List RAction :=
  if (st.inbound.lookup task.rid).isSome then
    (st, [.rejected task.rid .RequestIDInUse])
  else
    poll now { st with outbound := st.outbound ++ [task] }

/-- Flush of the outbound queue a mid-scan `poll` performs on a ready socket,
split over the already-visited (`kept`) and still-to-visit (`rest`) parts of
the inbound map: a flushed task whose id sits in the visited part is
overwritten in place, anything else lands in the unvisited part (`Map.set`
appends new keys at the end, so the scan loop will also visit them). -/
def flushOutbound (now : Nat) (kept rest : List (Nat × RTask)) (outb : List RTask) :
    List (Nat × RTask) × List (Nat × RTask) × List RAction :=
  match outb with
  | [] => (kept, rest, [])
  | t :: ts =>
    let t' := { t with timestampSent := now }
    let kr :=
      if (kept.lookup t.rid).isSome then (mapSet kept t.rid t', rest)
      else (kept, mapSet rest t.rid t')
    let kra := flushOutbound now kr.1 kr.2 ts
    (kra.1, kra.2.1, RAction.sent t.rid now :: kra.2.2)

/-- The loop of `retryOrTimeoutInboundsOlderThan` over the live inbound map.
Every entry whose `timestampSent` is at most the scan's `timestamp` is
removed and then retried (when `retriesLeft-- > 0`, re-entering through
`enqueue`/`poll`, with `now` the clock value at the resend) or rejected with
`RequestUnanswered`.  Entries re-added to the map during the scan are visited
again, which the fuel bounds by the total retry mass. -/
def scanGo (timestamp now : Nat) :
    Nat → List (Nat × RTask) → List (Nat × RTask) → SocketSt → List RTask →
    List RAction → Option (Transport × List RAction)
  | _, [], kept, sock, outb, acts => some (⟨sock, kept, outb⟩, acts)
  | 0, _ :: _, _, _, _, _ => none
  | fuel + 1, (k, t) :: rest, kept, sock, outb, acts =>
    if timestamp ≥ t.timestampSent then
      let hasRetries : Bool := match t.retriesLeft with
        | some r => decide (r > 0)
        | none => false
      if hasRetries then
        let t' := { t with retriesLeft := t.retriesLeft.map (fun r => r - 1) }
        if ((kept ++ rest).lookup k).isSome then
          scanGo timestamp now fuel rest kept sock outb
            (acts ++ [.rejected k .RequestIDInUse])
        else
          match sock with
          | .noSocket =>
            scanGo timestamp now fuel rest kept .opening (outb ++ [t'])
              (acts ++ [.socketCreated])
          | .opening =>
            scanGo timestamp now fuel rest kept sock (outb ++ [t']) acts
          | .ready =>
            let kra := flushOutbound now kept rest (outb ++ [t'])
            scanGo timestamp now fuel kra.2.1 kra.1 sock [] (acts ++ kra.2.2)
      else
        scanGo timestamp now fuel rest kept sock outb
          (acts ++ [.rejected k .RequestUnanswered])
    else
      scanGo timestamp now fuel rest (kept ++ [(k, t)]) sock outb acts

/-- Fuel bound for the scan: one step per map entry plus one per remaining
retry of any task. -/
def scanFuel (st : Transport) : Nat :=
  (st.inbound.map (fun e => 1 + (e.2.retriesLeft.getD 0).toNat)).sum +
    (st.outbound.map (fun t => 1 + (t.retriesLeft.getD 0).toNat)).sum + 1

/-- Method `ResolverSocketTransport.retryOrTimeoutInboundsOlderThan(timestamp)`,
where the `ResolverSocket` interval handler passes `timestamp` as the bare
current clock value (no `timeoutInMs` is subtracted anywhere), and `now` is
the clock value any mid-scan resend observes. -/
def retryOrTimeoutInboundsOlderThan (timestamp now : Nat) (st : Transport) :
    Option (Transport × List RAction) :=
  if st.inbound.isEmpty then some (st, [])
  else scanGo timestamp now (scanFuel st) st.inbound [] st.socket st.outbound []

/-- A transport with one in-flight task, sent at the very clock value the
scan runs at (so aged 0 ms), with the two UDP retries still available. -/
def freshTaskTransport : Transport :=
  ⟨.ready, [(7, { rid := 7, retriesLeft := some 2, timestampSent := 1000 })], []⟩

/-- Claim C4: on each tick of the timeout scan, only in-flight tasks older
than `now - timeoutInMs` are claimed to be acted upon, every younger task
being left untouched.  Evaluating the embedding refutes this: the interval
handler passes the bare clock value, and the scan compares it directly with
`timestampSent`, so a task sent in the very same millisecond (age 0, younger
than any positive timeout) is acted on at once — with a frozen clock it is
even retried twice and then rejected with `RequestUnanswered` within this
single tick, its two retries drained by the re-visits of the re-added map
entries.  Only a task stamped strictly in the future survives a tick. -/
theorem timeout_scan_acts_on_fresh_tasks :
    retryOrTimeoutInboundsOlderThan 1000 1000 freshTaskTransport =
      some (⟨.ready, [], []⟩,
        [.sent 7 1000, .sent 7 1000, .rejected 7 .RequestUnanswered]) ∧
    retryOrTimeoutInboundsOlderThan 1000 1001
      ⟨.ready, [(7, { rid := 7, retriesLeft := some 2, timestampSent := 1001 })], []⟩ =
      some (⟨.ready, [(7, { rid := 7, retriesLeft := some 2, timestampSent := 1001 })], []⟩,
        []) := by
  refine ⟨by decide, by decide⟩

/-- The nested `function reject(task)` of `rejectAllTasksWith`, called as a
plain function, has no `this` binding, so after the first `task.reject(...)`
call succeeds the `this.inbound.delete(...)` access throws a `TypeError` and
the iteration over the remaining tasks never happens. -/
def rejectAllGo (kind : ResolverErrorKind) :
    List RTask → List RAction × Option JsError
  | [] => ([], none)
  | t :: _ => ([.rejected t.rid kind], some .typeError)

/-- Method `ResolverSocketTransport.rejectAllTasksWith(kind)`: the inbound tasks are
iterated first, then the outbound queue. -/
def rejectAllTasksWith (st : Transport) (kind : ResolverErrorKind) :
    List RAction × Option JsError :=
  rejectAllGo kind (st.inbound.map (fun e => e.2) ++ st.outbound)

/-- Claim C5: a socket-level error is claimed to reject every outstanding
task of the transport, in-flight and queued alike, not only the first of
them.  Evaluating the embedding refutes this: with two in-flight tasks only
the first one's promise is rejected before the helper's unbound `this` makes
`this.inbound.delete` throw a `TypeError`, and likewise with two queued
tasks; only the empty transport completes the call. -/
theorem reject_all_stops_after_first_task :
    rejectAllTasksWith ⟨.ready,
        [(1, { rid := 1, retriesLeft := some 0 }), (2, { rid := 2, retriesLeft := some 0 })],
        []⟩ .Other =
      ([.rejected 1 .Other], some .typeError) ∧
    rejectAllTasksWith ⟨.opening, [],
        [{ rid := 3, retriesLeft := some 0 }, { rid := 4, retriesLeft := some 0 }]⟩ .Other =
      ([.rejected 3 .Other], some .typeError) ∧
    rejectAllTasksWith ⟨.ready, [], []⟩ .Other = ([], none) := by
  refine ⟨by decide, by decide, by decide⟩

/-- A transport whose socket is still opening, with a task waiting in the
outbound queue and nothing in flight yet. -/
def openingTransport : Transport :=
  ⟨.opening, [], [{ rid := 7, retriesLeft := some 2 }]⟩

/-- Claim C9 (counterexample): a message submitted while the socket is still
opening, whose id `7` equals the id of a task already waiting in the
outbound queue, is claimed to be rejected with `RequestIDInUse`.  Evaluating
the embedding refutes this: the collision guard consults only the in-flight
map, so the second task is accepted and both sit in the outbound queue. -/
theorem enqueue_accepts_outbound_id_collision :
    enqueue 0 openingTransport { rid := 7, retriesLeft := some 1 } =
      (⟨.opening, [],
        [{ rid := 7, retriesLeft := some 2 }, { rid := 7, retriesLeft := some 1 }]⟩, []) := by
  decide

/-- Claim C9 (amended): a submitted message whose id collides with an
in-flight task of the same transport is rejected with `RequestIDInUse`
without touching the socket or any queue; the guard covers only the inbound
map, not ids merely waiting in the outbound queue. -/
theorem enqueue_rejects_inflight_id_collision (now : Nat) (st : Transport)
    (task : RTask) (h : (st.inbound.lookup task.rid).isSome) :
    enqueue now st task = (st, [.rejected task.rid .RequestIDInUse]) := by
  simp [enqueue, h]

/-- Witness for the amended C9 theorem at a concrete transport state. -/
theorem enqueue_rejects_inflight_id_collision_witness :
    ((⟨.ready, [(7, { rid := 7, retriesLeft := some 2 })], []⟩ : Transport).inbound.lookup
        (7 : Nat)).isSome = true ∧
    enqueue 5 ⟨.ready, [(7, { rid := 7, retriesLeft := some 2 })], []⟩
        { rid := 7, retriesLeft := some 1 } =
      (⟨.ready, [(7, { rid := 7, retriesLeft := some 2 })], []⟩,
        [.rejected 7 .RequestIDInUse]) :=
  ⟨by decide,
    enqueue_rejects_inflight_id_collision 5
      ⟨.ready, [(7, { rid := 7, retriesLeft := some 2 })], []⟩
      { rid := 7, retriesLeft := some 1 } (by decide)⟩

/-! ## Template condition evaluation (`acml/Template.ts`)

The sandboxed `vm` evaluation of one condition expression is an external
collaborator; its outcome is either a `true` result, a non-`true` result
(including a missing lambda), or a thrown exception (including compile and
timeout faults), embedded as `CondOutcome`.  A violation record carries the
property named `exception` that the catch block actually sets, and the
`error` property that the `Violation` interface of `acml/Report.ts` declares
(and which `Report.write` reads); the two are distinct at runtime. -/

inductive CondOutcome where
  | isTrue
  | nonTrue
  | threw (e : Nat)
deriving DecidableEq

structure TViolation where
  vpath : JStr
  condition : JStr
  exception : Option Nat := none
  errField : Option Nat := none
deriving DecidableEq

/-- The conditions fold of `TemplateField.validate` (the `reduce` over
`this.conditions`): a `true` result contributes nothing; any other completed
result falls through to the unconditional push of one violation; a thrown
exception is caught and pushed as a violation with the `exception` property
set — after which control still falls through to the unconditional push, so
a second violation for the same condition follows. -/
def validateConditions (path : JStr) (conds : List (JStr × CondOutcome)) :
    List TViolation :=
  conds.foldl
    (fun violations c =>
      match c.2 with
      | .isTrue => violations
      | .nonTrue => violations ++ [{ vpath := path, condition := c.1 }]
      | .threw e =>
        violations ++ [{ vpath := path, condition := c.1, exception := some e },
          { vpath := path, condition := c.1 }])
    []

/-- Claim C8: each non-true condition is claimed to contribute exactly one
violation, and each throwing condition exactly one violation capturing the
exception in its `error` field.  Evaluating the embedding refutes the
throwing half: one throwing condition contributes two violations — the catch
block's push and then the fall-through push — and neither has its `error`
field set, because the catch block stores the exception under the property
named `exception`, which the `Violation` interface does not declare and
`Report.write` never reads.  A non-true condition does contribute exactly
one violation. -/
theorem throwing_condition_contributes_two_violations :
    validateConditions "".data [("c".data, .threw 5)] =
      [{ vpath := "".data, condition := "c".data, exception := some 5, errField := none },
        { vpath := "".data, condition := "c".data, exception := none, errField := none }] ∧
    (validateConditions "".data [("c".data, .threw 5)]).length = 2 ∧
    (validateConditions "".data [("c".data, .threw 5)]).all
      (fun v => v.errField = none) = true ∧
    validateConditions "".data [("c".data, .nonTrue)] =
      [{ vpath := "".data, condition := "c".data, exception := none, errField := none }] ∧
    validateConditions "".data [("c".data, .isTrue)] = [] := by
  refine ⟨by decide, by decide, by decide, by decide, by decide⟩

/-! ## DNS name reader (`dns/io.ts`, `Reader.readName`)

The byte-buffer primitives return `0` without advancing when the read would
pass the end of the buffer.  `readNameFuel` is the loop of `readName` with an
explicit step budget: each loop iteration and each jump through a
compression pointer consumes one unit, and `none` means the budget ran out —
so the source loops forever from `cur` exactly when every budget is
exhausted.  The name is returned as its byte text (labels joined by `0x2e`),
together with the final cursor. -/

def dnsReadU8 (src : List Nat) (cur : Nat) : Nat × Nat :=
  if cur + 1 > src.length then (0, cur)
  else (((src.get? cur).getD 0), cur + 1)

def dnsReadU16 (src : List Nat) (cur : Nat) : Nat × Nat :=
  if cur + 2 > src.length then (0, cur)
  else (((src.get? cur).getD 0) * 256 + ((src.get? (cur + 1)).getD 0), cur + 2)

def dnsReadBytes (src : List Nat) (cur len : Nat) : List Nat × Nat :=
  let stop := min src.length (cur + len)
  ((src.drop cur).take (stop - cur), stop)

def readNameFuel : Nat → List Nat → Nat → Option (List Nat × Nat)
  | 0, _, _ => none
  | fuel + 1, src, cur =>
    let r8 := dnsReadU8 src cur
    let len := r8.1
    if len = 0 then some ([], r8.2)
    else if len > 63 then
      let r16 := dnsReadU16 src (r8.2 - 1)
      let field := r16.1 % 16384
      if len &&& 192 = 192 then
        match readNameFuel fuel src field with
        | none => none
        | some su => some (su.1, r16.2)
      else some ([], r16.2)
    else
      let rb := dnsReadBytes src r8.2 len
      match readNameFuel fuel src rb.2 with
      | none => none
      | some su => some (rb.1 ++ 46 :: su.1, su.2)

/-- Predicate holding when `Reader.readName` terminates from a given cursor when some step budget
suffices. -/
def ReadNameTerminates (src : List Nat) (cur : Nat) : Prop :=
  ∃ fuel, (readNameFuel fuel src cur).isSome = true

theorem readNameFuel_self_pointer (fuel : Nat) :
    readNameFuel fuel [192, 0] 0 = none := by
  induction fuel with
  | zero => rfl
  | succ n ih => simp [readNameFuel, dnsReadU8, dnsReadU16, ih]

/-- Claim C10 (counterexample): `readName` is claimed to terminate on every
source buffer and cursor.  The two-byte buffer `0xc0 0x00` refutes this: its
length byte is a compression pointer whose 14-bit offset is its own
position, so the side reader re-enters `readName` at offset 0 forever. -/
theorem readName_self_pointer_diverges : ¬ ReadNameTerminates [192, 0] 0 := by
  rintro ⟨fuel, h⟩
  rw [readNameFuel_self_pointer fuel] at h
  simp at h

/-- Unfolding of one `readName` loop step when the cursor is past the end of
the buffer: `readU8` yields 0 without advancing and the loop exits. -/
theorem readNameFuel_past_end (fuel : Nat) (src : List Nat) (cur : Nat)
    (h : src.length < cur + 1) :
    readNameFuel (fuel + 1) src cur = some ([], cur) := by
  simp [readNameFuel, dnsReadU8, h]

/-- Unfolding of one `readName` loop step at a zero length byte. -/
theorem readNameFuel_zero_byte (fuel : Nat) (src : List Nat) (cur : Nat)
    (hcur : cur < src.length) (h : src.get? cur = some 0) :
    readNameFuel (fuel + 1) src cur = some ([], cur + 1) := by
  have hc : ¬ src.length < cur + 1 := by omega
  have h' : src[cur]? = some 0 := by simpa using h
  simp [readNameFuel, dnsReadU8, hc, h']

/-- Unfolding of one `readName` loop step at an ordinary label of length
`b ∈ 1..63`: the label bytes are consumed and the loop continues at the
clamped cursor. -/
theorem readNameFuel_label (fuel : Nat) (src : List Nat) (cur b : Nat)
    (hcur : cur < src.length) (hget : src.get? cur = some b) (hz : b ≠ 0)
    (hle : b ≤ 63) :
    readNameFuel (fuel + 1) src cur =
      (readNameFuel fuel src (min src.length (cur + 1 + b))).map
        (fun su => ((dnsReadBytes src (cur + 1) b).1 ++ 46 :: su.1, su.2)) := by
  have hc : ¬ src.length < cur + 1 := by omega
  have hgt : ¬ 63 < b := by omega
  have hget' : src[cur]? = some b := by simpa using hget
  cases hx : readNameFuel fuel src (min src.length (cur + 1 + b)) with
  | none => simp [readNameFuel, dnsReadU8, dnsReadBytes, hc, hget', hz, hgt, hx]
  | some su => simp [readNameFuel, dnsReadU8, dnsReadBytes, hc, hget', hz, hgt, hx]

/-- Claim C10 (amended): `readName` does terminate — with a budget of one
more than the bytes past the cursor — on every buffer that contains no
compression pointer, in particular whenever every byte is at most 63,
whatever the label lengths; it fails to terminate only through pointer
cycles such as the self-pointer buffer. -/
theorem readName_terminates_pointer_free (src : List Nat)
    (hb : ∀ b ∈ src, b ≤ 63) (n cur : Nat) (hn : src.length ≤ cur + n) :
    (readNameFuel (n + 1) src cur).isSome = true := by
  induction n generalizing cur with
  | zero =>
    have hcur : src.length < cur + 1 := by omega
    rw [readNameFuel_past_end 0 src cur hcur]
    rfl
  | succ m ih =>
    by_cases hcur : src.length < cur + 1
    · rw [readNameFuel_past_end (m + 1) src cur hcur]
      rfl
    · have hlt : cur < src.length := by omega
      obtain ⟨b, hbget⟩ : ∃ b, src.get? cur = some b := by
        rw [List.get?_eq_get hlt]
        exact ⟨_, rfl⟩
      have hble : b ≤ 63 := hb b (List.get?_mem hbget)
      by_cases hz : b = 0
      · rw [hz] at hbget
        rw [readNameFuel_zero_byte (m + 1) src cur hlt hbget]
        rfl
      · have hstop : src.length ≤ (min src.length (cur + 1 + b)) + m := by
          have h1 : cur + 1 ≤ min src.length (cur + 1 + b) := by
            apply le_min
            · omega
            · omega
          omega
        have hrec := ih (min src.length (cur + 1 + b)) hstop
        obtain ⟨su, hsu⟩ := Option.isSome_iff_exists.mp hrec
        rw [readNameFuel_label (m + 1) src cur b hlt hbget hz hble, hsu]
        rfl

/-- Witness for the amended C10 theorem on the pointer-free buffer encoding
one label of seven. -/
theorem readName_terminates_pointer_free_witness :
    (∀ b ∈ [1, 7, 0], b ≤ 63) ∧ ([1, 7, 0] : List Nat).length ≤ 0 + 3 ∧
    (readNameFuel (3 + 1) [1, 7, 0] 0).isSome = true :=
  ⟨by decide, by decide,
    readName_terminates_pointer_free [1, 7, 0] (by decide) 3 0 (by decide)⟩

/-! ## TXT attribute codec (`ddns/Message.ts`, `TXT.fromAttributes` /
`TXT.intoAttributes`)

`Buffer.alloc` yields a fixed-length zero-filled buffer.  `Buffer.write`
stores at most the remaining room and reports how much it stored, while the
`writeUInt8` behind `Writer.writeU8` throws a `RangeError` for an offset past
the last byte.  Attribute maps are embedded as ordered key/value lists; byte
text uses ASCII codes (the sources read and write with the byte-per-character
`binary` encoding).  The reader primitives are those of `io.ts`
(`dnsReadU8`, `dnsReadBytes` above). -/

structure JsBuffer where
  bytes : List Nat
deriving DecidableEq

def bufAlloc (n : Nat) : JsBuffer := ⟨List.replicate n 0⟩

/-- Overwrite part of a byte list in place. -/
def listOverwrite (l : List Nat) (off : Nat) (xs : List Nat) : List Nat :=
  l.take off ++ xs ++ l.drop (off + xs.length)

/-- Method `Buffer.write(string, offset, length)`: store
`min length (room, string length)` character codes, returning the count. -/
def bufWrite (b : JsBuffer) (off : Nat) (s : JStr) (maxLen : Nat) : JsBuffer × Nat :=
  let n := min (min maxLen s.length) (b.bytes.length - off)
  (⟨listOverwrite b.bytes off ((s.take n).map Char.toNat)⟩, n)

structure WriterSt where
  sink : JsBuffer
  cursor : Nat
deriving DecidableEq

/-- Method `Writer.writeU8`: a store past the end of the sink throws a
`RangeError`. -/
def writerWriteU8 (w : WriterSt) (v : Nat) : Except JsError WriterSt :=
  if w.cursor < w.sink.bytes.length then
    .ok ⟨⟨listOverwrite w.sink.bytes w.cursor [v % 256]⟩, w.cursor + 1⟩
  else .error .rangeError

/-- The `forEach` of `Writer.writeStrings`: each string with nonzero masked
length is emitted as a length byte followed by that many characters. -/
def writeStringsLoop (mask : Nat) : WriterSt → List JStr → Except JsError WriterSt
  | w, [] => .ok w
  | w, s :: rest =>
    let len := s.length &&& mask
    if len > 0 then
      match writerWriteU8 w len with
      | .error e => .error e
      | .ok w1 =>
        let bn := bufWrite w1.sink w1.cursor s len
        writeStringsLoop mask ⟨bn.1, w1.cursor + bn.2⟩ rest
    else writeStringsLoop mask w rest

/-- Method `Writer.writeStrings(strings, mask)`: the strings, then the terminating
zero byte. -/
def writerWriteStrings (w : WriterSt) (strings : List JStr) (mask : Nat) :
    Except JsError WriterSt :=
  match writeStringsLoop mask w strings with
  | .error e => .error e
  | .ok w1 => writerWriteU8 w1 0

/-- The characters the `format` helper of `TXT.fromAttributes` escapes with a
preceding backtick: TAB, LF, SPACE, the equals sign and the backtick. -/
def isTxtEscapedChar (c : Char) : Bool :=
  c.toNat = 9 || c.toNat = 10 || c.toNat = 32 || c.toNat = 61 || c.toNat = 96

def toLowerAscii (c : Char) : Char :=
  if 65 ≤ c.toNat && c.toNat ≤ 90 then Char.ofNat (c.toNat + 32) else c

/-- The per-character loop of `format`: escape the special characters (the
code 96 prefix is the backtick), keep other printable characters
(`0x21 .. 0x7e`), drop the rest. -/
def txtFormatKeyChars : JStr → JStr
  | [] => []
  | c :: cs =>
    if isTxtEscapedChar c then Char.ofNat 96 :: c :: txtFormatKeyChars cs
    else if 32 < c.toNat && c.toNat < 127 then c :: txtFormatKeyChars cs
    else txtFormatKeyChars cs

/-- Helper `format(key)`: escape and filter, then lower-case the whole result. -/
def txtFormatKey (key : JStr) : JStr := (txtFormatKeyChars key).map toLowerAscii

/-- Method `TXT.fromAttributes`: the buffer is allocated from the raw key and value
lengths (`key.length + value.length + 2` per attribute plus one terminator
byte) with no room for escape characters, then the formatted
`key=value` strings are emitted through `writeStrings`. -/
def txtFromAttributes (attrs : List (JStr × JStr)) : Except JsError (List Nat) :=
  let rdlength := attrs.foldl (fun len kv => len + kv.1.length + kv.2.length + 2) 1
  let strings := attrs.map (fun kv => txtFormatKey kv.1 ++ Char.ofNat 61 :: kv.2)
  match writerWriteStrings ⟨bufAlloc rdlength, 0⟩ strings 255 with
  | .error e => .error e
  | .ok w => .ok w.sink.bytes

/-- Method `Reader.readStrings`: repeatedly read a length byte and that many bytes,
pushing the (possibly empty) string, until a zero length is read; the fuel is
one more than the buffer length, which the advancing cursor never exhausts. -/
def readStringsGo (src : List Nat) : Nat → Nat → List JStr
  | fuel, cur =>
    let r8 := dnsReadU8 src cur
    let rb := dnsReadBytes src r8.2 r8.1
    let s := rb.1.map Char.ofNat
    if r8.1 > 0 then
      match fuel with
      | 0 => [s]
      | fuel + 1 => s :: readStringsGo src fuel rb.2
    else [s]

/-- The `split` helper of `TXT.intoAttributes`: scan for the first unescaped
equals sign, unescaping code 96 pairs and keeping printable characters; a
string without a separator yields nothing. -/
def txtSplitPair : JStr → JStr → Option (JStr × JStr)
  | [], _ => none
  | c :: rest, key =>
    if c.toNat = 96 then
      match rest with
      | c' :: rest' => txtSplitPair rest' (key ++ [c'])
      | [] => none
    else if c.toNat = 61 then some (key.map toLowerAscii, rest)
    else if 32 < c.toNat && c.toNat < 127 then txtSplitPair rest (key ++ [c])
    else txtSplitPair rest key

/-- JavaScript property assignment on the attributes object: an existing key
keeps its position, a new key is appended. -/
def assocSetStr (l : List (JStr × JStr)) (k v : JStr) : List (JStr × JStr) :=
  match l with
  | [] => [(k, v)]
  | (k', v') :: rest => if k' = k then (k, v) :: rest else (k', v') :: assocSetStr rest k v

/-- Method `TXT.intoAttributes`: split every length-prefixed string and collect the
key/value pairs, dropping strings without a separator. -/
def txtIntoAttributes (txtData : List Nat) : List (JStr × JStr) :=
  (readStringsGo txtData (txtData.length + 1) 0).foldl
    (fun attrs s =>
      match txtSplitPair s [] with
      | some kv => assocSetStr attrs kv.1 kv.2
      | none => attrs) []

/-- Claim C7: encoding a printable-ASCII attribute map with
`TXT.fromAttributes` and decoding with `intoAttributes` is claimed to
round-trip up to key lower-casing, including for keys containing space,
equals or backtick, which the writer escapes.  Evaluating the embedding
refutes the escaped cases: every escape adds one byte the allocation did not
budget for, so the terminating `writeU8` lands one past the end of the
buffer and `fromAttributes` throws a `RangeError` — for a key with a space
and for a key with an equals sign alike — while an escape-free key such as
`Ab` does encode and round-trip to its lower-cased form. -/
theorem txt_attributes_escaped_key_overflows :
    txtFromAttributes [("a b".data, "v".data)] = .error .rangeError ∧
    txtFromAttributes [("a=b".data, "v".data)] = .error .rangeError ∧
    txtFromAttributes [("Ab".data, "v".data)] = .ok [4, 97, 98, 61, 118, 0] ∧
    txtIntoAttributes [4, 97, 98, 61, 118, 0] = [("ab".data, "v".data)] :=
  ⟨rfl, rfl, rfl, rfl⟩

/-! ## Transaction signer (`ddns/TransactionSigner.ts`)

The clock is an external collaborator; `sign` observes it as `nowMs`
milliseconds since the epoch.  JavaScript numbers are embedded as `ℚ` for the
division `new Date().getTime() / 1000` (the rational value is non-integral
exactly when the IEEE double is, for clock readings in any realistic range).
The HMAC primitive is a parameter.  The trailer is produced by running the
`Writer` of `io.ts` over the zero-filled
`Buffer.alloc(22 + keyName.length + algorithmName.length)` sink, and
`mac.update(writer.sink)` hashes that whole buffer: a trailing-dot name
emits one byte fewer than its budgeted `length + 2` (the empty final label
is skipped), so zero-fill slack at the end of the buffer is hashed too. -/

def tsigTimestamp (nowMs : Nat) : ℚ := (nowMs : ℚ) / 1000

/-- Big-endian byte image of a 16-bit store. -/
def writeU16Bytes (v : Nat) : List Nat := [v / 256 % 256, v % 256]

/-- Big-endian byte image of a 32-bit store. -/
def writeU32Bytes (v : Nat) : List Nat :=
  [v / 16777216 % 256, v / 65536 % 256, v / 256 % 256, v % 256]

/-- A multi-byte store of `Writer` (`sink.writeUInt16BE` and friends): the
store throws a `RangeError` unless the whole value fits before the end of
the sink. -/
def writerWriteBytes (w : WriterSt) (bs : List Nat) : Except JsError WriterSt :=
  if w.cursor + bs.length ≤ w.sink.bytes.length then
    .ok ⟨⟨listOverwrite w.sink.bytes w.cursor bs⟩, w.cursor + bs.length⟩
  else .error .rangeError

/-- Method `Writer.writeU16`. -/
def writerWriteU16 (w : WriterSt) (v : Nat) : Except JsError WriterSt :=
  writerWriteBytes w (writeU16Bytes v)

/-- Method `Writer.writeU32`. -/
def writerWriteU32 (w : WriterSt) (v : Nat) : Except JsError WriterSt :=
  writerWriteBytes w (writeU32Bytes v)

/-- Method `Writer.writeU48`: a 16-bit store of `v / 2^32` followed by a
32-bit store of the low word.  `sign` passes the raw `getTime()/1000` value
here; the bitwise stores truncate the fraction, so for clock readings below
2^31 seconds the emitted bytes are those of the whole-second floor
`nowMs / 1000`, which is the value the embedding threads through. -/
def writerWriteU48 (w : WriterSt) (v : Nat) : Except JsError WriterSt :=
  match writerWriteU16 w (v / 4294967296) with
  | .error e => .error e
  | .ok w1 => writerWriteU32 w1 (v % 4294967296)

/-- Split at every dot, keeping empty pieces (`name.split(".")`). -/
def splitOnDot : JStr → List JStr
  | [] => [[]]
  | c :: cs =>
    if c = '.' then [] :: splitOnDot cs
    else
      match splitOnDot cs with
      | s :: rest => (c :: s) :: rest
      | [] => [[c]]

/-- Method `Writer.writeName`: `writeStrings(name.split("."), 0x3f)` — the
dot-split labels, each length-prefixed with the length masked to 6 bits,
empty labels skipped, a zero terminator at the end. -/
def writerWriteName (w : WriterSt) (n : JStr) : Except JsError WriterSt :=
  writerWriteStrings w (splitOnDot n) 63

/-- The trailer buffer `sign` feeds to the HMAC after the message buffer:
the RFC 2845 section 3.4.2 field sequence — key name, class ANY (255),
TTL 0, algorithm name, 48-bit timestamp, fudge, error 0, other-length 0 —
written into the zero-filled
`Buffer.alloc(22 + keyName.length + algorithmName.length)` sink, of which
`mac.update(writer.sink)` hashes every byte, including any zero-fill slack
left when a name emits fewer bytes than its budgeted `length + 2`. -/
def tsigTrailerSink (keyName algName : JStr) (tsWire fudge : Nat) :
    Except JsError (List Nat) := do
  let w : WriterSt := ⟨bufAlloc (22 + keyName.length + algName.length), 0⟩
  let w ← writerWriteName w keyName
  let w ← writerWriteU16 w 255
  let w ← writerWriteU32 w 0
  let w ← writerWriteName w algName
  let w ← writerWriteU48 w tsWire
  let w ← writerWriteU16 w fudge
  let w ← writerWriteU16 w 0
  let w ← writerWriteU16 w 0
  return w.sink.bytes

/-- The TSIG resource record `TransactionSigner.sign` returns: record type
TSIG (250), class ANY (255), TTL 0, and rdata holding the algorithm name,
the raw `timeSigned` value, the fudge, the HMAC digest, the original message
id, error 0 and empty other-data. -/
structure TSIGRecord where
  recordName : JStr
  rtype : Nat
  dclass : Nat
  ttl : Nat
  algorithmName : JStr
  timeSigned : ℚ
  fudge : Nat
  mac : List Nat
  originalId : Nat
  errorField : Nat
  otherData : List Nat
deriving DecidableEq

/-- Method `TransactionSigner.sign(messageID, messageBuffer)` at clock value
`nowMs`: the timestamp stored in the record is `getTime() / 1000` with no
flooring, and the MAC is the HMAC of the message buffer followed by the
whole trailer sink. -/
def transactionSignerSign (hmac : List Nat → List Nat → List Nat)
    (key : List Nat) (keyName algName : JStr) (fudge msgId : Nat)
    (msgBuf : List Nat) (nowMs : Nat) : Except JsError TSIGRecord :=
  match tsigTrailerSink keyName algName (nowMs / 1000) fudge with
  | .error e => .error e
  | .ok sink =>
    .ok { recordName := keyName,
          rtype := 250,
          dclass := 255,
          ttl := 0,
          algorithmName := algName,
          timeSigned := tsigTimestamp nowMs,
          fudge := fudge,
          mac := hmac key (msgBuf ++ sink),
          originalId := msgId,
          errorField := 0,
          otherData := [] }

/-- Claim C6 (counterexample): the TSIG record is claimed to carry a
timestamp that is an integer count of seconds.  At the clock value
1600000000123 ms the computed timestamp `getTime() / 1000` equals
1600000000123/1000, which is no integer: the source divides but never
floors. -/
theorem tsig_timestamp_not_whole_seconds :
    ¬ ∃ k : ℤ, tsigTimestamp 1600000000123 = (k : ℚ) := by
  rintro ⟨k, hk⟩
  rw [tsigTimestamp, div_eq_iff (by norm_num : (1000 : ℚ) ≠ 0)] at hk
  have h : (1600000000123 : ℤ) = k * 1000 := by exact_mod_cast hk
  omega

/-- Claim C6 (amended): the signing timestamp is `getTime()/1000` without
flooring, an integer only at whole-second clock readings.  At such a
reading the record's timestamp is exactly the integer second count, and the
MAC is deterministically the HMAC of the message buffer followed by the
signer's trailer buffer — the RFC 2845 fields written into the allocated
sink, every byte of which is hashed, zero-fill slack included. -/
theorem tsig_sign_whole_second_instant (hmac : List Nat → List Nat → List Nat)
    (key : List Nat) (keyName algName : JStr) (fudge msgId : Nat)
    (msgBuf sink : List Nat) (nowMs : Nat) (h : nowMs % 1000 = 0)
    (hsink : tsigTrailerSink keyName algName (nowMs / 1000) fudge = .ok sink) :
    transactionSignerSign hmac key keyName algName fudge msgId msgBuf nowMs =
      .ok { recordName := keyName,
            rtype := 250,
            dclass := 255,
            ttl := 0,
            algorithmName := algName,
            timeSigned := ((nowMs / 1000 : Nat) : ℚ),
            fudge := fudge,
            mac := hmac key (msgBuf ++ sink),
            originalId := msgId,
            errorField := 0,
            otherData := [] } := by
  have hts : tsigTimestamp nowMs = ((nowMs / 1000 : Nat) : ℚ) := by
    have hdvd : 1000 ∣ nowMs := Nat.dvd_of_mod_eq_zero h
    have hmul : (nowMs / 1000) * 1000 = nowMs := Nat.div_mul_cancel hdvd
    rw [tsigTimestamp, eq_comm, eq_div_iff (by norm_num : (1000 : ℚ) ≠ 0)]
    exact_mod_cast hmul
  simp [transactionSignerSign, hsink, hts]

/-- The trailer sink for key name `k.` and algorithm name `hmac-md5.` at the
whole-second instant 1600000000 s with fudge 300: the written fields, then
two bytes of zero slack (each trailing-dot name emits one byte fewer than
its budgeted share of the 33-byte allocation), all of it hashed. -/
def tsigSinkExample : List Nat :=
  [1, 107, 0, 0, 255, 0, 0, 0, 0, 8, 104, 109, 97, 99, 45, 109, 100, 53, 0,
    0, 0, 95, 94, 16, 0, 1, 44, 0, 0, 0, 0, 0, 0]

/-- Witness for the amended C6 theorem at the whole-second instant
1600000000000 ms, with trailing-dot names whose hashed sink carries two
bytes of zero-fill slack past the written fields. -/
theorem tsig_sign_whole_second_instant_witness :
    1600000000000 % 1000 = 0 ∧
    tsigTrailerSink "k.".data "hmac-md5.".data (1600000000000 / 1000) 300 =
      .ok tsigSinkExample ∧
    transactionSignerSign (fun _ m => m) [] "k.".data "hmac-md5.".data 300 9 []
        1600000000000 =
      .ok { recordName := "k.".data,
            rtype := 250,
            dclass := 255,
            ttl := 0,
            algorithmName := "hmac-md5.".data,
            timeSigned := ((1600000000000 / 1000 : Nat) : ℚ),
            fudge := 300,
            mac := (fun (_ : List Nat) (m : List Nat) => m) [] ([] ++ tsigSinkExample),
            originalId := 9,
            errorField := 0,
            otherData := [] } :=
  ⟨by decide, rfl,
    tsig_sign_whole_second_instant (fun _ m => m) [] "k.".data "hmac-md5.".data
      300 9 [] tsigSinkExample 1600000000000 (by decide) rfl⟩
